import Mathlib

/-!
Shallow Lean embedding of the retrieval pipeline of the simba repository:
the Qdrant vector-index client (simba/services/qdrant_service.py), the
retrieval orchestrator (simba/services/retrieval_service.py), the pgvector
cross-encoder reranker (simba/vector_store/pgvector.py) and the sparse-vector
collection migrator (simba/scripts/migrate_sparse.py).

Conventions of the embedding:
* Scores and vector components are rationals (ℚ); cosine similarity itself
  involves square roots, so the scoring functions of the external index are
  parameters of the model (the index is modelled as scoring every point,
  sorting descending with a stable sort, and truncating).
* Python dicts with known keys become structures with Option fields;
  `dict.get(key, default)` becomes `Option.getD`.
* Fallible client calls return `Except QdrantError`; the only error the
  retrieval code distinguishes is qdrant's UnexpectedResponse (missing
  collection).
* Wall-clock timings cannot be modelled; latency entries record which stage
  timings the source sets on each control path, with the value fixed to 0.
-/

/-- Payload of a stored point: a Python dict with the known keys used by the
retrieval code, accessed via `payload.get(key, default)`. -/
structure Payload where
  document_id : Option String
  document_name : Option String
  chunk_text : Option String
  chunk_position : Option Int
deriving DecidableEq

/-- The empty payload dict. -/
def Payload.empty : Payload := ⟨none, none, none, none⟩

/-- A point stored in a collection: id, dense vector, optional sparse vector
(parallel index/value arrays), payload. -/
structure StoredPoint where
  id : String
  vector : List ℚ
  sparse : Option (List ℕ × List ℚ)
  payload : Payload
deriving DecidableEq

/-- A named collection's data: whether it was provisioned with the
"text-sparse" sparse-vector slot, and its points. -/
structure CollectionData where
  hasSparse : Bool
  points : List StoredPoint
deriving DecidableEq

/-- The state of the external vector index: named collections. -/
abbrev QdrantDB := List (String × CollectionData)

/-- Look up a collection by name. -/
def QdrantDB.find (db : QdrantDB) (name : String) : Option CollectionData :=
  (List.find? (fun c => c.fst = name) db).map Prod.snd

/-- qdrant_service.collection_exists: membership test on the collection
listing. -/
def collection_exists (db : QdrantDB) (name : String) : Bool :=
  (db.find name).isSome

/-- qdrant_service.collection_has_sparse_vectors: reads the collection's
sparse-vector config ("text-sparse" slot); any exception (in particular a
missing collection) yields False. -/
def collection_has_sparse_vectors (db : QdrantDB) (name : String) : Bool :=
  match db.find name with
  | none => false
  | some c => c.hasSparse

/-- Delete a collection from the index state (qdrant delete_collection;
deleting an absent collection is not an error). -/
def deleteCollection (db : QdrantDB) (name : String) : QdrantDB :=
  db.filter (fun c => ¬ c.fst = name)

/-- Replace (or insert) a collection's data under a name. -/
def setCollection (db : QdrantDB) (name : String) (c : CollectionData) : QdrantDB :=
  (deleteCollection db name) ++ [(name, c)]

/-- Errors surfaced by the qdrant client; the retrieval code only
distinguishes UnexpectedResponse (missing collection). -/
inductive QdrantError where
  | unexpectedResponse
deriving DecidableEq

/-- One search hit as returned by qdrant_service: id, score, payload. -/
structure SearchResult where
  id : String
  score : ℚ
  payload : Payload
deriving DecidableEq

/-- Stable insertion of `x` into a list sorted descending by `key`: `x` is
placed before the first element whose key it is ≥, so among equal keys the
inserted (earlier-input) element comes first. -/
def insertDesc {α : Type} (key : α → ℚ) (x : α) : List α → List α
  | [] => [x]
  | y :: ys => if key y ≤ key x then x :: y :: ys else y :: insertDesc key x ys

/-- Stable sort descending by `key` (models Python's stable sort /
the index returning hits ordered by descending score). -/
def sortDesc {α : Type} (key : α → ℚ) (l : List α) : List α :=
  l.foldr (insertDesc key) []

/-- Environment of the retrieval pipeline: the embedding model and the
external index's scoring functions, which are parameters of the model
(cosine similarity is not representable over ℚ), plus the cross-encoder of
the reranker (`none` = the model/dependency cannot be loaded). -/
structure RetrievalEnv where
  embed : String → List ℚ
  sparseEmbed : String → List ℕ × List ℚ
  sim : List ℚ → List ℚ → ℚ
  sparseSim : List ℕ × List ℚ → List ℕ × List ℚ → ℚ
  crossEncoder : Option (String → String → ℚ)

/-- Payload filter of qdrant_service (FieldCondition on "document_id"):
active only when a non-empty document id is supplied (Python truthiness of
`if document_id:`). -/
def applyDocFilter (document_id : Option String) (pts : List StoredPoint) : List StoredPoint :=
  match document_id with
  | none => pts
  | some d => if d = "" then pts else pts.filter (fun p => p.payload.document_id = some d)

/-- Modelled behavior of the external index's dense query (client.query_points
with a plain vector): every (filtered) point is scored against the query by
`env.sim`, hits are ordered by descending score and truncated to `limit`. -/
def queryPointsDense (env : RetrievalEnv) (c : CollectionData) (qv : List ℚ)
    (document_id : Option String) (limit : ℕ) : List SearchResult :=
  (sortDesc (fun r => r.score)
    ((applyDocFilter document_id c.points).map
      (fun p => ⟨p.id, env.sim qv p.vector, p.payload⟩))).take limit

/-- Modelled behavior of the external index's sparse query (prefetch against
the "text-sparse" slot): only points carrying a sparse vector participate,
scored by `env.sparseSim`, ordered descending, truncated to `limit`. -/
def queryPointsSparse (env : RetrievalEnv) (c : CollectionData) (qs : List ℕ × List ℚ)
    (document_id : Option String) (limit : ℕ) : List SearchResult :=
  (sortDesc (fun r => r.score)
    ((applyDocFilter document_id c.points).filterMap
      (fun p => (p.sparse).map (fun sv => (⟨p.id, env.sparseSim qs sv, p.payload⟩ : SearchResult))))).take limit

/-- qdrant_service.search: dense similarity query; qdrant raises
UnexpectedResponse when the collection does not exist. -/
def search (env : RetrievalEnv) (db : QdrantDB) (collection_name : String)
    (query_vector : List ℚ) (limit : ℕ) (document_id : Option String) :
    Except QdrantError (List SearchResult) :=
  match db.find collection_name with
  | none => .error .unexpectedResponse
  | some c => .ok (queryPointsDense env c query_vector document_id limit)

/-- Reciprocal-rank-fusion contribution of one ranked list to a candidate:
1/(rank + k) with 1-based rank and k = 1 (equivalently 1/(i + 2) for 0-based
index i, qdrant's RRF constant), 0 when the candidate is absent from the
list. -/
def rankContribution (l : List SearchResult) (id : String) : ℚ :=
  match l.findIdx? (fun r => r.id = id) with
  | some i => mkRat 1 (i + 1 + 1)
  | none => 0

/-- Modelled RRF fusion of the external index (client.query_points with
query=Fusion.RRF): candidates of both prefetch lists (deduplicated by id,
dense-list order first) receive the sum of their per-list reciprocal-rank
contributions as fused score and are ordered by descending fused score. -/
def rrfFuse (dense sparse : List SearchResult) : List SearchResult :=
  let candidates := dense ++ sparse.filter (fun r => ¬ dense.any (fun d => d.id = r.id))
  sortDesc (fun r => r.score)
    (candidates.map (fun r =>
      { r with score := rankContribution dense r.id + rankContribution sparse r.id }))

/-- qdrant_service.hybrid_search: when the collection lacks sparse support or
no sparse query is supplied, falls back to plain dense `search` with the same
arguments; otherwise issues two prefetches (dense and sparse), each
over-fetched with limit*2, fused by RRF and truncated to `limit`. -/
def hybrid_search (env : RetrievalEnv) (db : QdrantDB) (collection_name : String)
    (query_dense : List ℚ) (query_sparse : Option (List ℕ × List ℚ))
    (limit : ℕ) (document_id : Option String) :
    Except QdrantError (List SearchResult) :=
  let has_sparse := collection_has_sparse_vectors db collection_name
  if has_sparse = false ∨ query_sparse = none then
    search env db collection_name query_dense limit document_id
  else
    match db.find collection_name, query_sparse with
    | some c, some qs =>
        .ok ((rrfFuse
          (queryPointsDense env c query_dense document_id (limit * 2))
          (queryPointsSparse env c qs document_id (limit * 2))).take limit)
    | _, _ => .error .unexpectedResponse

/-- Input point dict of qdrant_service.upsert_vectors: keys "id" and "vector"
are always present; "sparse_indices", "sparse_values" and "payload" are
optional keys. -/
structure InputPoint where
  id : String
  vector : List ℚ
  sparse_indices : Option (List ℕ)
  sparse_values : Option (List ℚ)
  payload : Option Payload
deriving DecidableEq

/-- Translation of the point-construction loop of upsert_vectors: a sparse
vector is attached iff both "sparse_indices" and "sparse_values" are present;
a missing "payload" key becomes the empty payload. -/
def buildPoint (p : InputPoint) : StoredPoint :=
  let has_sparse := p.sparse_indices.isSome && p.sparse_values.isSome
  { id := p.id
    vector := p.vector
    sparse := if has_sparse then some (p.sparse_indices.getD [], p.sparse_values.getD []) else none
    payload := p.payload.getD Payload.empty }

/-- qdrant upsert semantics: each new point replaces any stored point with
the same id. -/
def upsertPoints (old new : List StoredPoint) : List StoredPoint :=
  old.filter (fun p => ¬ new.any (fun q => q.id = p.id)) ++ new

/-- qdrant_service.upsert_vectors: builds the PointStructs via `buildPoint`
and upserts them into the collection (UnexpectedResponse when the collection
is missing). -/
def upsert_vectors (db : QdrantDB) (collection_name : String) (points : List InputPoint) :
    Except QdrantError QdrantDB :=
  match db.find collection_name with
  | none => .error .unexpectedResponse
  | some c =>
      .ok (setCollection db collection_name
        { c with points := upsertPoints c.points (points.map buildPoint) })

/-- retrieval_service.RetrievedChunk. -/
structure RetrievedChunk where
  document_id : String
  document_name : String
  chunk_text : String
  chunk_position : Int
  score : ℚ
deriving DecidableEq

/-- Conversion of a search result to the RetrievedChunk read-model
(retrieval_service.retrieve, payload.get with defaults). -/
def toChunk (r : SearchResult) : RetrievedChunk :=
  { document_id := r.payload.document_id.getD ""
    document_name := r.payload.document_name.getD ""
    chunk_text := r.payload.chunk_text.getD ""
    chunk_position := r.payload.chunk_position.getD 0
    score := r.score }

/-- retrieval_service.LatencyBreakdown: which stage timings are recorded on a
control path (values fixed to 0; wall-clock time is outside the model). -/
structure LatencyBreakdown where
  embedding_ms : Option ℚ
  sparse_embedding_ms : Option ℚ
  search_ms : Option ℚ
  rerank_ms : Option ℚ
  total_ms : Option ℚ
deriving DecidableEq

/-- Return shape of retrieval_service.retrieve: a bare chunk list, or a
(chunks, latency) pair when return_latency is requested. -/
inductive RetrieveOutput where
  | plain (chunks : List RetrievedChunk)
  | withLatency (chunks : List RetrievedChunk) (latency : LatencyBreakdown)
deriving DecidableEq

/-- The chunk list carried by either return shape. -/
def RetrieveOutput.chunks : RetrieveOutput → List RetrievedChunk
  | .plain cs => cs
  | .withLatency cs _ => cs

/-- Modelled from the spec: `rerank_chunks` of simba/services/reranker_service.py,
which is imported by retrieval_service.retrieve but is not under src (only its
caller is). Per §4.3 the reranker computes a cross-encoder relevance score
between the query and each candidate's text, sorts descending by that score
and returns the first `top_k`; per §3 the returned chunks carry the rerank
score in their score field. Per the §4.3 degradation policy, when the
cross-encoder model cannot be loaded (`none`) it logs a warning and returns
the first `top_k` of its input unchanged. -/
def rerank_chunks (ce : Option (String → String → ℚ)) (query : String)
    (chunks : List RetrievedChunk) (top_k : ℕ) : List RetrievedChunk :=
  match ce with
  | none => chunks.take top_k
  | some f =>
      (sortDesc (fun c => c.score)
        (chunks.map (fun c => { c with score := f query c.chunk_text }))).take top_k

/-- Stage 1 of retrieval_service.retrieve (lines 69-98): dense query
embedding, sparse query embedding only in hybrid mode, fan-out limit*4 when
reranking, then hybrid or plain search. -/
def searchStage (env : RetrievalEnv) (db : QdrantDB) (query collection_name : String)
    (limit : ℕ) (rerank hybrid : Bool) : Except QdrantError (List SearchResult) :=
  let query_dense := env.embed query
  let query_sparse := if hybrid then some (env.sparseEmbed query) else none
  let search_limit := if rerank then limit * 4 else limit
  if hybrid then
    hybrid_search env db collection_name query_dense query_sparse search_limit none
  else
    search env db collection_name query_dense search_limit none

/-- Stage 2 of retrieval_service.retrieve (lines 108-121): drop candidates
scoring below min_score and convert to RetrievedChunk. -/
def filterChunks (min_score : ℚ) (results : List SearchResult) : List RetrievedChunk :=
  (results.filter (fun r => min_score ≤ r.score)).map toChunk

/-- Stage 3 of retrieval_service.retrieve (lines 123-135): rerank when
enabled and candidates remain; with rerank enabled and no candidates return
the empty list unchanged; otherwise truncate to limit. -/
def finalStage (env : RetrievalEnv) (query : String) (limit : ℕ) (rerank : Bool)
    (chunks : List RetrievedChunk) : List RetrievedChunk :=
  if rerank then
    if chunks.isEmpty then chunks
    else rerank_chunks env.crossEncoder query chunks limit
  else chunks.take limit

/-- Latency map built on the missing-collection path of retrieve (lines
99-105): embedding, sparse embedding when hybrid, search and total. -/
def latencyOnError (hybrid : Bool) : LatencyBreakdown :=
  { embedding_ms := some 0
    sparse_embedding_ms := if hybrid then some 0 else none
    search_ms := some 0
    rerank_ms := none
    total_ms := some 0 }

/-- Latency map built on the normal path of retrieve: rerank timing only when
reranking ran on a nonempty candidate list. -/
def latencyOnSuccess (hybrid rerank : Bool) (rerankRan : Bool) : LatencyBreakdown :=
  { embedding_ms := some 0
    sparse_embedding_ms := if hybrid then some 0 else none
    search_ms := some 0
    rerank_ms := if rerank && rerankRan then some 0 else none
    total_ms := some 0 }

/-- retrieval_service.retrieve with all option defaults resolved: search
(catching UnexpectedResponse as the missing-collection case, returning an
empty result), min-score filtering, rerank-or-truncate, latency shape per
return_latency. -/
def retrieveCore (env : RetrievalEnv) (db : QdrantDB) (query collection_name : String)
    (limit : ℕ) (min_score : ℚ) (rerank hybrid return_latency : Bool) : RetrieveOutput :=
  match searchStage env db query collection_name limit rerank hybrid with
  | .error .unexpectedResponse =>
      if return_latency then .withLatency [] (latencyOnError hybrid) else .plain []
  | .ok results =>
      let chunks := filterChunks min_score results
      let final := finalStage env query limit rerank chunks
      if return_latency then
        .withLatency final (latencyOnSuccess hybrid rerank (¬ chunks.isEmpty))
      else .plain final

/-- The sentinel string of retrieval_service.retrieve_formatted. -/
def noInfoSentinel : String := "No relevant information found in the knowledge base."

/-- The chunk delimiter of retrieval_service.retrieve_formatted. -/
def chunkDelimiter : String := "\n\n---\n\n"

/-- One formatted context part: "[Source i: document_name]\n" followed by the
chunk text (retrieve_formatted lines 178-181, i counting from 1). -/
def formatPart (i : ℕ) (c : RetrievedChunk) : String :=
  "[Source " ++ toString i ++ ": " ++ c.document_name ++ "]\n" ++ c.chunk_text

/-- Join of the formatted parts, or the sentinel when no chunk was found
(retrieve_formatted lines 170-183). -/
def formatChunks (chunks : List RetrievedChunk) : String :=
  if chunks.isEmpty then noInfoSentinel
  else String.intercalate chunkDelimiter
    ((List.zip (List.range' 1 chunks.length) chunks).map (fun p => formatPart p.fst p.snd))

/-- retrieval_service.retrieve_formatted: runs retrieve with the resolved
defaults for min_score/rerank/hybrid and formats the resulting chunks. -/
def retrieve_formatted (env : RetrievalEnv) (db : QdrantDB) (query collection_name : String)
    (limit : ℕ) (min_score : ℚ) (rerank hybrid : Bool) : String :=
  formatChunks (retrieveCore env db query collection_name limit min_score rerank hybrid false).chunks

/-- A row of pgvector's chunks_embeddings table as consumed by the reranker:
only the JSONB field "page_content" of `data` is read (via
data.get("page_content", "")); an id stands in for the remaining columns. -/
structure ChunkEmbedding where
  id : String
  data_page_content : Option String
deriving DecidableEq

/-- PGVectorStore._rerank_with_cross_encoder (pgvector.py lines 296-337):
with a loadable cross-encoder (`some ce`), scores every (query, page_content)
pair, orders the results by descending score (Python's stable sort; two
results with exactly equal scores would make the tuple comparison raise and
fall into the handler, a case the model folds into the sorted branch) and
returns the first top_k. When sentence_transformers cannot be imported or
the model cannot be loaded (`none`), logs a warning and returns the first
top_k of the input unchanged. -/
def rerankWithCrossEncoder (encoder : Option (String → String → ℚ)) (query : String)
    (initial_results : List ChunkEmbedding) (top_k : ℕ) : List ChunkEmbedding :=
  match encoder with
  | none => initial_results.take top_k
  | some ce =>
      ((sortDesc (fun p => p.fst)
        (initial_results.map (fun r => (ce query (r.data_page_content.getD ""), r)))).map
          Prod.snd).take top_k

/-- Temporary-collection naming convention of migrate_sparse.migrate_collection. -/
def tempName (name : String) : String := name ++ "_migration_temp"

/-- Fault-injectable state of a migration run: the index state plus a
schedule saying, for each successive external call inside the try block,
whether that call raises (an exhausted schedule means no further faults). -/
structure MigSt where
  db : QdrantDB
  faults : List Bool
deriving DecidableEq

/-- Computation inside migrate_collection's try block: state passing with a
possible exception, the state at the raise point being retained for the
handler. -/
def MigM (α : Type) : Type := MigSt → Except QdrantError α × MigSt

/-- Sequencing of try-block steps: an exception aborts the rest. -/
def mBind {α β : Type} (x : MigM α) (f : α → MigM β) : MigM β := fun s =>
  match x s with
  | (.ok a, s1) => f a s1
  | (.error e, s1) => (.error e, s1)

/-- A pure try-block step. -/
def mPure {α : Type} (a : α) : MigM α := fun s => (.ok a, s)

/-- One external call inside the try block: consumes the next fault-schedule
entry; a scheduled fault raises without touching the index, otherwise the
call's own semantics `op` runs (and may itself fail). -/
def qCall {α : Type} (op : QdrantDB → Except QdrantError (α × QdrantDB)) : MigM α := fun s =>
  match s.faults with
  | true :: rest => (.error .unexpectedResponse, ⟨s.db, rest⟩)
  | false :: rest =>
      match op s.db with
      | .ok (a, db1) => (.ok a, ⟨db1, rest⟩)
      | .error e => (.error e, ⟨s.db, rest⟩)
  | [] =>
      match op s.db with
      | .ok (a, db1) => (.ok a, ⟨db1, []⟩)
      | .error e => (.error e, ⟨s.db, []⟩)

/-- client.create_collection with dense + "text-sparse" config: raises when
the name is already taken. -/
def createSparseCollection (name : String) (db : QdrantDB) :
    Except QdrantError (Unit × QdrantDB) :=
  if collection_exists db name then .error .unexpectedResponse
  else .ok ((), db ++ [(name, { hasSparse := true, points := [] })])

/-- client.delete_collection inside the try block. -/
def deleteCollectionCall (name : String) (db : QdrantDB) :
    Except QdrantError (Unit × QdrantDB) :=
  .ok ((), deleteCollection db name)

/-- client.get_collection: reads the point count, raising on a missing
collection. -/
def getPointsCount (name : String) (db : QdrantDB) :
    Except QdrantError (ℕ × QdrantDB) :=
  match db.find name with
  | none => .error .unexpectedResponse
  | some c => .ok (c.points.length, db)

/-- client.scroll: one page of `batch` points starting at `offset` (the
paging cursor is modelled as a position), together with the next cursor,
`none` on the last page. -/
def scrollCall (name : String) (batch : ℕ) (offset : ℕ) (db : QdrantDB) :
    Except QdrantError ((List StoredPoint × Option ℕ) × QdrantDB) :=
  match db.find name with
  | none => .error .unexpectedResponse
  | some c =>
      .ok (((c.points.drop offset).take batch,
            if offset + batch < c.points.length then some (offset + batch) else none), db)

/-- client.upsert inside the try block. -/
def upsertCall (name : String) (pts : List StoredPoint) (db : QdrantDB) :
    Except QdrantError (Unit × QdrantDB) :=
  match db.find name with
  | none => .error .unexpectedResponse
  | some c => .ok ((), setCollection db name { c with points := upsertPoints c.points pts })

/-- Point preparation of the staging loop (migrate_sparse lines 115-159):
points without retrievable chunk_text are copied dense-only first, then the
points whose text was batch-embedded are appended with their sparse vectors
(get_sparse_embeddings preserves order, so batching equals a pointwise map). -/
def buildMigPoints (sparseEmb : String → List ℕ × List ℚ) (results : List StoredPoint) :
    List StoredPoint :=
  (results.filter (fun p => p.payload.chunk_text.getD "" = "")).map
      (fun p => { p with sparse := none })
    ++ (results.filter (fun p => ¬ p.payload.chunk_text.getD "" = "")).map
      (fun p => { p with sparse := some (sparseEmb (p.payload.chunk_text.getD "")) })

/-- Staging loop of migrate_collection (lines 102-172): scroll the source in
batches, prepare sparse-augmented points, upsert them into the temporary
collection, until an empty page or an exhausted cursor; `fuel` bounds the
iteration count of the while-loop. -/
def stagingLoop (sparseEmb : String → List ℕ × List ℚ) (source target : String)
    (batch : ℕ) : ℕ → ℕ → MigM Unit
  | 0, _ => mPure ()
  | fuel + 1, offset =>
      mBind (qCall (scrollCall source batch offset)) (fun page =>
        if page.fst.isEmpty then mPure ()
        else
          mBind (let pts := buildMigPoints sparseEmb page.fst
                 if pts.isEmpty then mPure () else qCall (upsertCall target pts))
            (fun _ =>
              match page.snd with
              | none => mPure ()
              | some next => stagingLoop sparseEmb source target batch fuel next))

/-- Copy-back loop of migrate_collection (lines 197-224): scroll the
temporary collection in batches and upsert the points unchanged into the
recreated original. -/
def copyBackLoop (source target : String) (batch : ℕ) : ℕ → ℕ → MigM Unit
  | 0, _ => mPure ()
  | fuel + 1, offset =>
      mBind (qCall (scrollCall source batch offset)) (fun page =>
        if page.fst.isEmpty then mPure ()
        else
          mBind (if page.fst.isEmpty then mPure () else qCall (upsertCall target page.fst))
            (fun _ =>
              match page.snd with
              | none => mPure ()
              | some next => copyBackLoop source target batch fuel next))

/-- The try block of migrate_collection (lines 77-230): create the temporary
collection with sparse support, read the source point count, stage all points
into it, delete the original, recreate it with sparse support, copy
everything back, delete the temporary collection. -/
def tryBody (sparseEmb : String → List ℕ × List ℚ) (name : String) (batch fuel : ℕ) :
    MigM Unit :=
  let temp := tempName name
  mBind (qCall (createSparseCollection temp)) (fun _ =>
  mBind (qCall (getPointsCount name)) (fun _ =>
  mBind (stagingLoop sparseEmb name temp batch fuel 0) (fun _ =>
  mBind (qCall (deleteCollectionCall name)) (fun _ =>
  mBind (qCall (createSparseCollection name)) (fun _ =>
  mBind (copyBackLoop temp name batch fuel 0) (fun _ =>
  qCall (deleteCollectionCall temp)))))))

/-- Pre-try cleanup of migrate_collection (lines 72-75): a temporary
collection left over from a failed previous migration is deleted. -/
def preTryDb (db : QdrantDB) (name : String) : QdrantDB :=
  if collection_exists db (tempName name) then deleteCollection db (tempName name) else db

/-- migrate_sparse.migrate_collection: missing collection reports failure;
a collection that already has sparse vectors is a no-op success; otherwise
any leftover temporary collection is deleted and the try block runs, its
exception handler (lines 232-238) deleting the temporary collection when it
exists and reporting failure instead of propagating. The introspection reads
and the cleanup calls outside the try block are modelled as reliable. -/
def migrate_collection (sparseEmb : String → List ℕ × List ℚ) (name : String)
    (batch fuel : ℕ) (s : MigSt) : Bool × MigSt :=
  if ¬ collection_exists s.db name then (false, s)
  else if collection_has_sparse_vectors s.db name then (true, s)
  else
    match tryBody sparseEmb name batch fuel ⟨preTryDb s.db name, s.faults⟩ with
    | (.ok _, s1) => (true, s1)
    | (.error _, s1) =>
        if collection_exists s1.db (tempName name) then
          (false, ⟨deleteCollection s1.db (tempName name), s1.faults⟩)
        else (false, s1)

/-- Concrete environment instantiating the scoring parameters in the
witnesses: the index scores a point by the head of its dense vector and a
sparse match by the head of the sparse values. -/
def witnessEnv (ce : Option (String → String → ℚ)) : RetrievalEnv :=
  { embed := fun _ => [1]
    sparseEmbed := fun _ => ([0], [1])
    sim := fun _ v => v.headI
    sparseSim := fun _ sv => sv.snd.headI
    crossEncoder := ce }

/-- Witness index state: a dense-only collection "docs" with three chunks
scoring 91, 85 and 40 against the witness query. -/
def docsDB : QdrantDB :=
  [("docs",
    { hasSparse := false
      points :=
        [⟨"p1", [91], none, ⟨some "d1", some "Doc1", some "alpha", some 0⟩⟩,
         ⟨"p2", [85], none, ⟨some "d1", some "Doc1", some "beta", some 1⟩⟩,
         ⟨"p3", [40], none, ⟨some "d2", some "Doc2", some "gamma", some 0⟩⟩] })]

/-- Witness index state: a sparse-capable collection "kb"; the dense ranking
is a, b, c and the sparse ranking is b, a (c is an older dense-only point). -/
def kbDB : QdrantDB :=
  [("kb",
    { hasSparse := true
      points :=
        [⟨"a", [3], some ([0], [1]), ⟨some "d1", some "DocA", some "ta", some 0⟩⟩,
         ⟨"b", [2], some ([0], [2]), ⟨some "d1", some "DocB", some "tb", some 1⟩⟩,
         ⟨"c", [1], none, ⟨some "d2", some "DocC", some "tc", some 0⟩⟩] })]

theorem mem_insertDesc {α : Type} (key : α → ℚ) (x : α) (l : List α) (a : α) :
    a ∈ insertDesc key x l ↔ a = x ∨ a ∈ l := by
  induction l with
  | nil => simp [insertDesc]
  | cons y ys ih =>
      by_cases h : key y ≤ key x
      · simp [insertDesc, h]
      · simp only [insertDesc, if_neg h, List.mem_cons, ih]
        tauto

theorem pairwise_insertDesc {α : Type} (key : α → ℚ) (x : α) (l : List α)
    (h : l.Pairwise (fun a b => key b ≤ key a)) :
    (insertDesc key x l).Pairwise (fun a b => key b ≤ key a) := by
  induction l with
  | nil => simp [insertDesc]
  | cons y ys ih =>
      rcases List.pairwise_cons.mp h with ⟨hy, hys⟩
      by_cases hcmp : key y ≤ key x
      · rw [insertDesc, if_pos hcmp]
        refine List.pairwise_cons.mpr ⟨?_, h⟩
        intro z hz
        rcases List.mem_cons.mp hz with hz | hz
        · exact hz ▸ hcmp
        · exact le_trans (hy z hz) hcmp
      · rw [insertDesc, if_neg hcmp]
        refine List.pairwise_cons.mpr ⟨?_, ih hys⟩
        intro z hz
        rcases (mem_insertDesc key x ys z).mp hz with hz | hz
        · exact hz ▸ le_of_not_le hcmp
        · exact hy z hz

theorem sortDesc_pairwise {α : Type} (key : α → ℚ) (l : List α) :
    (sortDesc key l).Pairwise (fun a b => key b ≤ key a) := by
  induction l with
  | nil => simp [sortDesc]
  | cons x xs ih => exact pairwise_insertDesc key x _ ih

theorem mem_sortDesc {α : Type} (key : α → ℚ) (l : List α) (a : α) :
    a ∈ sortDesc key l ↔ a ∈ l := by
  induction l with
  | nil => simp [sortDesc]
  | cons x xs ih =>
      simp only [sortDesc, List.foldr_cons, List.mem_cons]
      rw [mem_insertDesc]
      constructor
      · rintro (h | h)
        · exact Or.inl h
        · exact Or.inr (ih.mp h)
      · rintro (h | h)
        · exact Or.inl h
        · exact Or.inr (ih.mpr h)

theorem collection_exists_false_iff (db : QdrantDB) (name : String) :
    collection_exists db name = false ↔ db.find name = none := by
  unfold collection_exists
  cases db.find name <;> simp

theorem search_missing (env : RetrievalEnv) (db : QdrantDB) (name : String)
    (qv : List ℚ) (limit : ℕ) (docId : Option String)
    (h : db.find name = none) :
    search env db name qv limit docId = .error .unexpectedResponse := by
  unfold search
  rw [h]

theorem searchStage_missing (env : RetrievalEnv) (db : QdrantDB) (query name : String)
    (limit : ℕ) (rerank hybrid : Bool)
    (h : db.find name = none) :
    searchStage env db query name limit rerank hybrid = .error .unexpectedResponse := by
  unfold searchStage hybrid_search
  have hs : collection_has_sparse_vectors db name = false := by
    unfold collection_has_sparse_vectors
    rw [h]
  cases hybrid <;> simp [hs, search_missing env db name _ _ _ h]

/-- C1: a retrieve call against a collection that does not exist returns an
empty result list (with a latency breakdown when return_latency is true)
rather than propagating the UnexpectedResponse raised by the index. -/
theorem retrieve_missing_collection_empty (env : RetrievalEnv) (db : QdrantDB)
    (query collection_name : String) (limit : ℕ) (min_score : ℚ) (rerank hybrid : Bool)
    (h : collection_exists db collection_name = false) :
    retrieveCore env db query collection_name limit min_score rerank hybrid false = .plain []
    ∧ retrieveCore env db query collection_name limit min_score rerank hybrid true
        = .withLatency [] (latencyOnError hybrid) := by
  have hf := (collection_exists_false_iff db collection_name).mp h
  unfold retrieveCore
  rw [searchStage_missing env db query collection_name limit rerank hybrid hf]
  exact ⟨rfl, rfl⟩

/-- Witness for C1: retrieving from the nonexistent collection "ghost". -/
theorem retrieve_missing_collection_empty_witness :
    retrieveCore (witnessEnv none) docsDB "refund policy" "ghost" 5 0 false true false = .plain []
    ∧ retrieveCore (witnessEnv none) docsDB "refund policy" "ghost" 5 0 false true true
        = .withLatency [] (latencyOnError true) :=
  retrieve_missing_collection_empty (witnessEnv none) docsDB "refund policy" "ghost" 5 0
    false true (by decide)

/-- C2: when the cross-encoder model or its dependency cannot be loaded, the
pgvector reranking stage returns the first top_k candidates of its input in
unchanged order, and a retrieve call that hits the degraded reranker
completes normally with the first `limit` filtered candidates unchanged
instead of failing. -/
theorem rerank_dependency_unavailable (env : RetrievalEnv) (db : QdrantDB)
    (query collection_name pgquery : String) (initial_results : List ChunkEmbedding)
    (top_k limit : ℕ) (min_score : ℚ) (hybrid : Bool)
    (hce : env.crossEncoder = none) :
    rerankWithCrossEncoder none pgquery initial_results top_k = initial_results.take top_k
    ∧ (∀ results, searchStage env db query collection_name limit true hybrid = .ok results →
        retrieveCore env db query collection_name limit min_score true hybrid false
          = .plain ((filterChunks min_score results).take limit)) := by
  constructor
  · rfl
  · intro results hres
    unfold retrieveCore
    rw [hres]
    unfold finalStage rerank_chunks
    rw [hce]
    by_cases hemp : (filterChunks min_score results).isEmpty
    · simp [hemp, List.isEmpty_iff.mp hemp]
    · simp [hemp]

/-- Witness for C2: with the cross-encoder unavailable, the pgvector reranker
passes its first two candidates through unchanged, and a rerank-enabled
retrieve against "docs" returns the two filtered candidates unchanged. -/
theorem rerank_dependency_unavailable_witness :
    rerankWithCrossEncoder none "q" [⟨"r1", some "x"⟩, ⟨"r2", some "y"⟩, ⟨"r3", some "z"⟩] 2
        = [⟨"r1", some "x"⟩, ⟨"r2", some "y"⟩]
    ∧ retrieveCore (witnessEnv none) docsDB "q" "docs" 2 50 true false false
        = .plain [⟨"d1", "Doc1", "alpha", 0, 91⟩, ⟨"d1", "Doc1", "beta", 1, 85⟩] := by
  have h := rerank_dependency_unavailable (witnessEnv none) docsDB "q" "docs" "q"
    [⟨"r1", some "x"⟩, ⟨"r2", some "y"⟩, ⟨"r3", some "z"⟩] 2 2 50 false rfl
  refine ⟨h.1, ?_⟩
  have h2 := h.2 (queryPointsDense (witnessEnv none)
    { hasSparse := false
      points :=
        [⟨"p1", [91], none, ⟨some "d1", some "Doc1", some "alpha", some 0⟩⟩,
         ⟨"p2", [85], none, ⟨some "d1", some "Doc1", some "beta", some 1⟩⟩,
         ⟨"p3", [40], none, ⟨some "d2", some "Doc2", some "gamma", some 0⟩⟩] }
    [1] none 8) rfl
  rw [h2]
  decide

theorem pairwise_sortDesc_take {α : Type} (key : α → ℚ) (l : List α) (n : ℕ) :
    ((sortDesc key l).take n).Pairwise (fun a b => key b ≤ key a) :=
  List.Pairwise.sublist (List.take_sublist n (sortDesc key l)) (sortDesc_pairwise key l)

theorem queryPointsDense_pairwise (env : RetrievalEnv) (c : CollectionData) (qv : List ℚ)
    (docId : Option String) (limit : ℕ) :
    (queryPointsDense env c qv docId limit).Pairwise (fun a b => b.score ≤ a.score) :=
  pairwise_sortDesc_take (fun r : SearchResult => r.score) _ limit

theorem rrfFuse_take_pairwise (dense sparse : List SearchResult) (n : ℕ) :
    ((rrfFuse dense sparse).take n).Pairwise (fun a b => b.score ≤ a.score) := by
  simp only [rrfFuse]
  exact pairwise_sortDesc_take (fun r : SearchResult => r.score) _ n

theorem search_ok_sorted (env : RetrievalEnv) (db : QdrantDB) (name : String)
    (qv : List ℚ) (limit : ℕ) (docId : Option String) (results : List SearchResult)
    (h : search env db name qv limit docId = .ok results) :
    results.Pairwise (fun a b => b.score ≤ a.score) := by
  unfold search at h
  cases hf : db.find name with
  | none => rw [hf] at h; cases h
  | some c =>
      rw [hf] at h
      injection h with h
      rw [← h]
      exact queryPointsDense_pairwise env c qv docId limit

theorem hybrid_ok_sorted (env : RetrievalEnv) (db : QdrantDB) (name : String)
    (qd : List ℚ) (qs : Option (List ℕ × List ℚ)) (limit : ℕ) (docId : Option String)
    (results : List SearchResult)
    (h : hybrid_search env db name qd qs limit docId = .ok results) :
    results.Pairwise (fun a b => b.score ≤ a.score) := by
  unfold hybrid_search at h
  by_cases hc : collection_has_sparse_vectors db name = false ∨ qs = none
  · rw [if_pos hc] at h
    exact search_ok_sorted env db name qd limit docId results h
  · rw [if_neg hc] at h
    cases hf : db.find name with
    | none =>
        exfalso
        exact hc (Or.inl (by unfold collection_has_sparse_vectors; rw [hf]))
    | some c =>
        cases qs with
        | none => exact absurd (Or.inr rfl) hc
        | some q =>
            rw [hf] at h
            injection h with h
            rw [← h]
            exact rrfFuse_take_pairwise _ _ limit

theorem searchStage_ok_sorted (env : RetrievalEnv) (db : QdrantDB) (query name : String)
    (limit : ℕ) (rerank hybrid : Bool) (results : List SearchResult)
    (h : searchStage env db query name limit rerank hybrid = .ok results) :
    results.Pairwise (fun a b => b.score ≤ a.score) := by
  unfold searchStage at h
  cases hybrid with
  | true => exact hybrid_ok_sorted _ _ _ _ _ _ _ _ h
  | false => exact search_ok_sorted _ _ _ _ _ _ _ h

theorem filterChunks_pairwise (min_score : ℚ) (results : List SearchResult)
    (h : results.Pairwise (fun a b => b.score ≤ a.score)) :
    (filterChunks min_score results).Pairwise (fun a b => b.score ≤ a.score) := by
  unfold filterChunks
  rw [List.pairwise_map]
  exact List.Pairwise.sublist (List.filter_sublist results) h

theorem rerank_chunks_pairwise (ce : Option (String → String → ℚ)) (query : String)
    (chunks : List RetrievedChunk) (top_k : ℕ)
    (h : chunks.Pairwise (fun a b => b.score ≤ a.score)) :
    (rerank_chunks ce query chunks top_k).Pairwise (fun a b => b.score ≤ a.score) := by
  cases ce with
  | none => exact List.Pairwise.sublist (List.take_sublist top_k chunks) h
  | some f => exact pairwise_sortDesc_take (fun c : RetrievedChunk => c.score) _ top_k

theorem finalStage_pairwise (env : RetrievalEnv) (query : String) (limit : ℕ)
    (rerank : Bool) (chunks : List RetrievedChunk)
    (h : chunks.Pairwise (fun a b => b.score ≤ a.score)) :
    (finalStage env query limit rerank chunks).Pairwise (fun a b => b.score ≤ a.score) := by
  unfold finalStage
  cases rerank with
  | false => exact List.Pairwise.sublist (List.take_sublist limit chunks) h
  | true =>
      by_cases hemp : chunks.isEmpty
      · simpa [hemp]
      · simpa [hemp] using rerank_chunks_pairwise env.crossEncoder query chunks limit h

/-- C3: in every mode (dense or hybrid search, reranking on or off, with or
without latency reporting) the chunk list returned by a retrieve call is
ordered by descending score: each chunk's score is ≥ the next one's. The
modelled index returns hits sorted by descending similarity, and the
spec-modelled reranker writes its cross-encoder score into the score field
of the chunks it sorts. -/
theorem retrieve_sorted_desc (env : RetrievalEnv) (db : QdrantDB)
    (query collection_name : String) (limit : ℕ) (min_score : ℚ)
    (rerank hybrid return_latency : Bool) :
    ((retrieveCore env db query collection_name limit min_score rerank hybrid
        return_latency).chunks).Pairwise (fun a b => b.score ≤ a.score) := by
  unfold retrieveCore
  cases hs : searchStage env db query collection_name limit rerank hybrid with
  | error e =>
      cases e
      cases return_latency <;> simp [RetrieveOutput.chunks]
  | ok results =>
      have hfin := finalStage_pairwise env query limit rerank
        (filterChunks min_score results)
        (filterChunks_pairwise min_score results
          (searchStage_ok_sorted env db query collection_name limit rerank hybrid results hs))
      cases return_latency <;> simpa [RetrieveOutput.chunks] using hfin

theorem filterChunks_score (m : ℚ) (results : List SearchResult) (c : RetrievedChunk)
    (h : c ∈ filterChunks m results) : m ≤ c.score := by
  unfold filterChunks at h
  rcases List.mem_map.mp h with ⟨r, hr, rfl⟩
  have hp := List.of_mem_filter hr
  simpa [toChunk] using hp

theorem rerank_chunks_mem (ce : Option (String → String → ℚ)) (query : String)
    (chunks : List RetrievedChunk) (top_k : ℕ) (c : RetrievedChunk)
    (h : c ∈ rerank_chunks ce query chunks top_k) :
    ∃ c0 ∈ chunks, c = c0 ∨ ∃ f, ce = some f ∧ c = { c0 with score := f query c0.chunk_text } := by
  cases ce with
  | none => exact ⟨c, List.mem_of_mem_take h, Or.inl rfl⟩
  | some f =>
      have h1 := List.mem_of_mem_take h
      have h2 := (mem_sortDesc (fun x : RetrievedChunk => x.score) _ c).mp h1
      rcases List.mem_map.mp h2 with ⟨c0, hc0, rfl⟩
      exact ⟨c0, hc0, Or.inr ⟨f, rfl, rfl⟩⟩

theorem finalStage_mem (env : RetrievalEnv) (query : String) (limit : ℕ) (rerank : Bool)
    (chunks : List RetrievedChunk) (c : RetrievedChunk)
    (h : c ∈ finalStage env query limit rerank chunks) :
    ∃ c0 ∈ chunks,
      c = c0 ∨ ∃ f, env.crossEncoder = some f ∧ c = { c0 with score := f query c0.chunk_text } := by
  unfold finalStage at h
  cases rerank with
  | false => exact ⟨c, List.mem_of_mem_take h, Or.inl rfl⟩
  | true =>
      by_cases hemp : chunks.isEmpty
      · rw [if_pos hemp] at h
        exact ⟨c, h, Or.inl rfl⟩
      · rw [if_neg hemp] at h
        exact rerank_chunks_mem env.crossEncoder query chunks limit c h

theorem finalStage_mem_plain (env : RetrievalEnv) (query : String) (limit : ℕ) (rerank : Bool)
    (chunks : List RetrievedChunk) (c : RetrievedChunk)
    (hplain : rerank = false ∨ env.crossEncoder = none)
    (h : c ∈ finalStage env query limit rerank chunks) : c ∈ chunks := by
  unfold finalStage at h
  cases rerank with
  | false => exact List.mem_of_mem_take h
  | true =>
      rcases hplain with hplain | hplain
      · cases hplain
      · by_cases hemp : chunks.isEmpty
        · rwa [if_pos hemp] at h
        · rw [if_neg hemp] at h
          unfold rerank_chunks at h
          rw [hplain] at h
          exact List.mem_of_mem_take h

theorem retrieveCore_chunks_ok (env : RetrievalEnv) (db : QdrantDB)
    (query name : String) (limit : ℕ) (m : ℚ) (rerank hybrid rl : Bool)
    (results : List SearchResult)
    (hs : searchStage env db query name limit rerank hybrid = .ok results) :
    (retrieveCore env db query name limit m rerank hybrid rl).chunks
      = finalStage env query limit rerank (filterChunks m results) := by
  unfold retrieveCore
  rw [hs]
  cases rl <;> rfl

/-- C4 counterexample: a rerank-enabled retrieve call with min_score 50 over
"docs" (search scores 91, 85, 40) in which the cross-encoder scores every
passage 1, so the returned chunks carry score 1 < 50. The claim that every
returned chunk has score ≥ min_score fails with reranking enabled. -/
theorem retrieve_min_score_counterexample :
    ∃ c ∈ (retrieveCore (witnessEnv (some (fun _ _ => 1))) docsDB "q" "docs"
        2 50 true false false).chunks, c.score < 50 := by decide

/-- C4 amended: candidates scoring below min_score are discarded before the
rerank/truncate stage — every returned chunk arises from a candidate that
passed the min-score filter, either unchanged or (rerank only) with its
score field replaced by the cross-encoder score; in particular with
reranking disabled, or with the reranker degraded, every returned chunk's
score is ≥ min_score. -/
theorem retrieve_min_score_amended (env : RetrievalEnv) (db : QdrantDB)
    (query name : String) (limit : ℕ) (m : ℚ) (rerank hybrid rl : Bool) :
    (∀ results, searchStage env db query name limit rerank hybrid = .ok results →
      ∀ c ∈ (retrieveCore env db query name limit m rerank hybrid rl).chunks,
        ∃ c0 ∈ filterChunks m results,
          m ≤ c0.score ∧
          (c = c0 ∨ ∃ f, env.crossEncoder = some f ∧
            c = { c0 with score := f query c0.chunk_text }))
    ∧ ((rerank = false ∨ env.crossEncoder = none) →
        ∀ c ∈ (retrieveCore env db query name limit m rerank hybrid rl).chunks,
          m ≤ c.score) := by
  constructor
  · intro results hs c hc
    rw [retrieveCore_chunks_ok env db query name limit m rerank hybrid rl results hs] at hc
    rcases finalStage_mem env query limit rerank (filterChunks m results) c hc with
      ⟨c0, hc0, hcase⟩
    exact ⟨c0, hc0, filterChunks_score m results c0 hc0, hcase⟩
  · intro hplain c hc
    cases hs : searchStage env db query name limit rerank hybrid with
    | error e =>
        exfalso
        cases e
        unfold retrieveCore at hc
        rw [hs] at hc
        cases rl <;> simp [RetrieveOutput.chunks] at hc
    | ok results =>
        rw [retrieveCore_chunks_ok env db query name limit m rerank hybrid rl results hs] at hc
        exact filterChunks_score m results c
          (finalStage_mem_plain env query limit rerank (filterChunks m results) c hplain hc)

/-- Witness for the amended C4: in the no-rerank call over "docs" with
min_score 50 the top chunk is returned with its search score 91 ≥ 50. -/
theorem retrieve_min_score_amended_witness :
    (50 : ℚ) ≤ (RetrievedChunk.mk "d1" "Doc1" "alpha" 0 91).score :=
  (retrieve_min_score_amended (witnessEnv none) docsDB "q" "docs" 2 50 false false false).2
    (Or.inl rfl) (RetrievedChunk.mk "d1" "Doc1" "alpha" 0 91) (by decide)

/-- C5: hybrid_search on a collection without sparse provisioning, or without
a sparse query vector, returns exactly the result of plain dense search with
the same collection, dense vector, limit and document filter; when the
collection exists this is a normal (.ok) result, not an error. -/
theorem hybrid_search_fallback (env : RetrievalEnv) (db : QdrantDB) (name : String)
    (qd : List ℚ) (qs : Option (List ℕ × List ℚ)) (limit : ℕ) (docId : Option String)
    (h : collection_has_sparse_vectors db name = false ∨ qs = none) :
    hybrid_search env db name qd qs limit docId = search env db name qd limit docId
    ∧ (collection_exists db name = true →
        ∃ rs, hybrid_search env db name qd qs limit docId = .ok rs) := by
  have heq : hybrid_search env db name qd qs limit docId
      = search env db name qd limit docId := by
    unfold hybrid_search
    rw [if_pos h]
  refine ⟨heq, fun hex => ?_⟩
  rw [heq]
  unfold search
  cases hf : db.find name with
  | none =>
      exfalso
      unfold collection_exists at hex
      rw [hf] at hex
      cases hex
  | some c => exact ⟨_, rfl⟩

/-- Witness for C5: a hybrid query with a sparse vector against the
dense-only collection "docs" equals the dense search and succeeds. -/
theorem hybrid_search_fallback_witness :
    hybrid_search (witnessEnv none) docsDB "docs" [1] (some ([0], [1])) 2 none
        = search (witnessEnv none) docsDB "docs" [1] 2 none
    ∧ (∃ rs, hybrid_search (witnessEnv none) docsDB "docs" [1] (some ([0], [1])) 2 none
        = .ok rs) :=
  have h := hybrid_search_fallback (witnessEnv none) docsDB "docs" [1] (some ([0], [1]))
    2 none (Or.inl (by decide))
  ⟨h.1, h.2 (by decide)⟩

theorem rrfFuse_score (dense sparse : List SearchResult) (r : SearchResult)
    (h : r ∈ rrfFuse dense sparse) :
    r.score = rankContribution dense r.id + rankContribution sparse r.id := by
  simp only [rrfFuse] at h
  have h2 := (mem_sortDesc (fun x : SearchResult => x.score) _ r).mp h
  rcases List.mem_map.mp h2 with ⟨c0, hc0, rfl⟩
  rfl

/-- C6: a hybrid_search against a sparse-capable collection with a sparse
query issues a dense and a sparse candidate query each over-fetched with
limit 2 times the requested limit, fuses them by reciprocal-rank-fusion and
returns the fused candidates sorted by descending fused score, truncated to
`limit`; each returned candidate's score is the sum over the two lists of
1/(rank_in_list + k), the contribution being 0 for a list not containing
it. -/
theorem hybrid_search_rrf (env : RetrievalEnv) (db : QdrantDB) (name : String)
    (qd : List ℚ) (qs : List ℕ × List ℚ) (limit : ℕ) (docId : Option String)
    (c : CollectionData) (hf : db.find name = some c) (hs : c.hasSparse = true) :
    hybrid_search env db name qd (some qs) limit docId
      = .ok ((rrfFuse (queryPointsDense env c qd docId (limit * 2))
                      (queryPointsSparse env c qs docId (limit * 2))).take limit)
    ∧ ((rrfFuse (queryPointsDense env c qd docId (limit * 2))
                (queryPointsSparse env c qs docId (limit * 2))).take limit).length ≤ limit
    ∧ ((rrfFuse (queryPointsDense env c qd docId (limit * 2))
                (queryPointsSparse env c qs docId (limit * 2))).take limit).Pairwise
          (fun a b => b.score ≤ a.score)
    ∧ ∀ r ∈ (rrfFuse (queryPointsDense env c qd docId (limit * 2))
                     (queryPointsSparse env c qs docId (limit * 2))).take limit,
        r.score = rankContribution (queryPointsDense env c qd docId (limit * 2)) r.id
                + rankContribution (queryPointsSparse env c qs docId (limit * 2)) r.id := by
  have hsp : collection_has_sparse_vectors db name = true := by
    unfold collection_has_sparse_vectors
    rw [hf]
    exact hs
  refine ⟨?_, List.length_take_le limit _, rrfFuse_take_pairwise _ _ limit, ?_⟩
  · unfold hybrid_search
    rw [if_neg (by simp [hsp]), hf]
  · intro r hr
    exact rrfFuse_score _ _ r (List.mem_of_mem_take hr)

unseal Rat.add in
/-- Witness for C6: against the sparse-capable "kb" (dense ranking a, b, c;
sparse ranking b, a) a hybrid query with limit 2 returns a then b, each with
the fused score 1/2 + 1/3 = 1/3 + 1/2 = 5/6, reproducing the RRF example. -/
theorem hybrid_search_rrf_witness :
    hybrid_search (witnessEnv none) kbDB "kb" [1] (some ([0], [1])) 2 none
      = .ok [⟨"a", mkRat 5 6, ⟨some "d1", some "DocA", some "ta", some 0⟩⟩,
             ⟨"b", mkRat 5 6, ⟨some "d1", some "DocB", some "tb", some 1⟩⟩] := by
  have h := (hybrid_search_rrf (witnessEnv none) kbDB "kb" [1] ([0], [1]) 2 none
    ⟨true,
      [⟨"a", [3], some ([0], [1]), ⟨some "d1", some "DocA", some "ta", some 0⟩⟩,
       ⟨"b", [2], some ([0], [2]), ⟨some "d1", some "DocB", some "tb", some 1⟩⟩,
       ⟨"c", [1], none, ⟨some "d2", some "DocC", some "tc", some 0⟩⟩]⟩
    (by decide) rfl).1
  rw [h]
  exact congrArg Except.ok (by decide)

theorem intercalate_go_prefix (l : List String) : ∀ (a s b : String),
    ∃ t, String.intercalate.go a s (b :: l) = a ++ t := by
  induction l with
  | nil =>
      intro a s b
      refine ⟨s ++ b, ?_⟩
      show String.intercalate.go (a ++ s ++ b) s [] = a ++ (s ++ b)
      rw [String.intercalate.go]
      simp [String.append_assoc]
  | cons c cs ih =>
      intro a s b
      rcases ih (a ++ s ++ b) s c with ⟨t, ht⟩
      refine ⟨s ++ b ++ t, ?_⟩
      show String.intercalate.go (a ++ s ++ b) s (c :: cs) = a ++ (s ++ b ++ t)
      rw [ht]
      simp [String.append_assoc]

theorem intercalate_cons_prefix (s a : String) (l : List String) :
    ∃ t, String.intercalate s (a :: l) = a ++ t := by
  cases l with
  | nil =>
      refine ⟨"", ?_⟩
      show String.intercalate.go a s [] = a ++ ""
      rw [String.intercalate.go]
      simp
  | cons b bs => exact intercalate_go_prefix bs a s b

theorem formatChunks_ne_sentinel (c : RetrievedChunk) (cs : List RetrievedChunk) :
    formatChunks (c :: cs) ≠ noInfoSentinel := by
  unfold formatChunks
  rw [if_neg (by simp)]
  have hzip : (List.zip (List.range' 1 (c :: cs).length) (c :: cs)).map
        (fun p => formatPart p.fst p.snd)
      = formatPart 1 c
        :: (List.zip (List.range' 2 cs.length) cs).map (fun p => formatPart p.fst p.snd) := rfl
  rw [hzip]
  rcases intercalate_cons_prefix chunkDelimiter (formatPart 1 c) _ with ⟨t, ht⟩
  rw [ht]
  intro heq
  have hd := congrArg String.data heq
  simp only [formatPart, String.data_append] at hd
  simp only [List.cons_append] at hd
  have hh := congrArg List.head? hd
  simp only [List.head?_cons] at hh
  exact absurd hh (by decide)

theorem formatChunks_contract (L : List RetrievedChunk) :
    ((formatChunks L = noInfoSentinel) ↔ L = [])
    ∧ (L ≠ [] → formatChunks L = String.intercalate chunkDelimiter
        ((List.zip (List.range' 1 L.length) L).map (fun p => formatPart p.fst p.snd))) := by
  cases L with
  | nil =>
      refine ⟨?_, fun h => absurd rfl h⟩
      simp [formatChunks]
  | cons c cs =>
      constructor
      · constructor
        · intro h
          exact absurd h (formatChunks_ne_sentinel c cs)
        · intro h
          cases h
      · intro _
        unfold formatChunks
        rw [if_neg (by simp)]

/-- C7: retrieve_formatted returns the literal sentinel "No relevant
information found in the knowledge base." exactly when the underlying
retrieve call returns no chunks; otherwise it returns the chunks in ranked
order, each rendered as "[Source i: document_name]" on one line followed by
the chunk text, joined by the delimiter "\n\n---\n\n". -/
theorem retrieve_formatted_contract (env : RetrievalEnv) (db : QdrantDB)
    (query name : String) (limit : ℕ) (m : ℚ) (rerank hybrid : Bool) :
    ((retrieve_formatted env db query name limit m rerank hybrid = noInfoSentinel)
      ↔ (retrieveCore env db query name limit m rerank hybrid false).chunks = [])
    ∧ ((retrieveCore env db query name limit m rerank hybrid false).chunks ≠ [] →
        retrieve_formatted env db query name limit m rerank hybrid
          = String.intercalate chunkDelimiter
              ((List.zip
                  (List.range' 1
                    (retrieveCore env db query name limit m rerank hybrid false).chunks.length)
                  ((retrieveCore env db query name limit m rerank hybrid false).chunks)).map
                (fun p => formatPart p.fst p.snd))) := by
  unfold retrieve_formatted
  exact formatChunks_contract _

unseal Rat.add in
/-- Witness for C7: the empty "ghost" result yields the sentinel, and the
two-chunk "docs" result yields the labelled, delimiter-joined context. -/
theorem retrieve_formatted_contract_witness :
    retrieve_formatted (witnessEnv none) docsDB "q" "ghost" 2 0 false false = noInfoSentinel
    ∧ retrieve_formatted (witnessEnv none) docsDB "q" "docs" 2 50 false false
        = "[Source 1: Doc1]\nalpha\n\n---\n\n[Source 2: Doc1]\nbeta" := by
  constructor
  · exact (retrieve_formatted_contract (witnessEnv none) docsDB "q" "ghost"
      2 0 false false).1.mpr (by decide)
  · have h := (retrieve_formatted_contract (witnessEnv none) docsDB "q" "docs"
      2 50 false false).2 (by decide)
    rw [h]
    decide

theorem find_deleteCollection (db : QdrantDB) (n : String) :
    List.find? (fun c => c.fst = n) (deleteCollection db n) = none := by
  apply List.find?_eq_none.mpr
  intro x hx
  have hp := List.of_mem_filter hx
  simp only [decide_not, Bool.not_eq_eq_eq_not, Bool.not_true, decide_eq_false_iff_not] at hp
  simpa using hp

theorem collection_exists_delete (db : QdrantDB) (n : String) :
    collection_exists (deleteCollection db n) n = false := by
  unfold collection_exists QdrantDB.find
  rw [find_deleteCollection db n]
  rfl

theorem find_setCollection (db : QdrantDB) (n : String) (c : CollectionData) :
    QdrantDB.find (setCollection db n c) n = some c := by
  unfold setCollection QdrantDB.find
  rw [List.find?_append, find_deleteCollection db n]
  simp [List.find?]

/-- C8: when any external call inside the staging or swapping phases of
migrate_collection raises, the temporary collection
collection_name ++ "_migration_temp" is absent from the final index state
(the handler deletes it when it exists) and the call returns False instead
of propagating the exception. -/
theorem migrate_failure_cleanup (emb : String → List ℕ × List ℚ) (name : String)
    (batch fuel : ℕ) (s : MigSt) (e : QdrantError) (s1 : MigSt)
    (hex : collection_exists s.db name = true)
    (hsp : collection_has_sparse_vectors s.db name = false)
    (herr : tryBody emb name batch fuel ⟨preTryDb s.db name, s.faults⟩ = (.error e, s1)) :
    (migrate_collection emb name batch fuel s).fst = false
    ∧ collection_exists (migrate_collection emb name batch fuel s).snd.db (tempName name)
        = false := by
  unfold migrate_collection
  rw [hex, hsp]
  simp only [Bool.true_eq_false, not_true_eq_false, if_false, Bool.false_eq_true]
  rw [herr]
  dsimp only
  by_cases htemp : collection_exists s1.db (tempName name) = true
  · rw [if_pos htemp]
    exact ⟨rfl, collection_exists_delete s1.db (tempName name)⟩
  · rw [if_neg htemp]
    exact ⟨rfl, Bool.not_eq_true _ ▸ (Bool.of_not_eq_true htemp)⟩

/-- Witness for C8: the first external call of the try block (creating the
temporary collection) faults; migration over "docs" reports failure and no
"docs_migration_temp" collection remains. -/
theorem migrate_failure_cleanup_witness :
    (migrate_collection (fun _ => ([0], [1])) "docs" 100 10 ⟨docsDB, [true]⟩).fst = false
    ∧ collection_exists (migrate_collection (fun _ => ([0], [1])) "docs" 100 10
        ⟨docsDB, [true]⟩).snd.db (tempName "docs") = false :=
  migrate_failure_cleanup (fun _ => ([0], [1])) "docs" 100 10 ⟨docsDB, [true]⟩
    .unexpectedResponse ⟨docsDB, []⟩ (by decide) (by decide) rfl

/-- C9: migrate_collection on an existing collection that already has sparse
vectors returns True and leaves the whole index state (hence the collection's
point count and contents) unchanged: no create, upsert or delete is
performed, so a second Migrator run is a no-op. -/
theorem migrate_already_sparse_noop (emb : String → List ℕ × List ℚ) (name : String)
    (batch fuel : ℕ) (s : MigSt)
    (hex : collection_exists s.db name = true)
    (hsp : collection_has_sparse_vectors s.db name = true) :
    migrate_collection emb name batch fuel s = (true, s) := by
  unfold migrate_collection
  rw [hex, hsp]
  simp

/-- Witness for C9: a second migration of the sparse-capable collection "kb"
returns success and the exact same index state. -/
theorem migrate_already_sparse_noop_witness :
    migrate_collection (fun _ => ([0], [1])) "kb" 100 10 ⟨kbDB, []⟩ = (true, ⟨kbDB, []⟩) :=
  migrate_already_sparse_noop (fun _ => ([0], [1])) "kb" 100 10 ⟨kbDB, []⟩
    (by decide) (by decide)

/-- C10: a point dict given to upsert_vectors is stored with a sparse vector
iff it carries both the "sparse_indices" and the "sparse_values" key; a point
with only one of the two keys is stored dense-only, exactly as if the
supplied half were absent; a point without a "payload" key is stored with an
empty payload; and when the collection exists the built points are stored in
it. -/
theorem upsert_vectors_sparse_iff (p : InputPoint) (db : QdrantDB) (name : String)
    (ps : List InputPoint) (c : CollectionData) :
    ((buildPoint p).sparse.isSome = true
      ↔ (p.sparse_indices.isSome = true ∧ p.sparse_values.isSome = true))
    ∧ (p.sparse_values = none → buildPoint p = buildPoint { p with sparse_indices := none })
    ∧ (p.sparse_indices = none → buildPoint p = buildPoint { p with sparse_values := none })
    ∧ (p.payload = none → (buildPoint p).payload = Payload.empty)
    ∧ (db.find name = some c → p ∈ ps →
        ∃ db2, upsert_vectors db name ps = .ok db2
          ∧ buildPoint p ∈ ((QdrantDB.find db2 name).map CollectionData.points).getD []) := by
  refine ⟨?_, ?_, ?_, ?_, ?_⟩
  · unfold buildPoint
    cases hi : p.sparse_indices <;> cases hv : p.sparse_values <;> simp
  · intro hv
    unfold buildPoint
    simp [hv]
  · intro hi
    unfold buildPoint
    simp [hi]
  · intro hp
    unfold buildPoint
    simp [hp]
  · intro hfind hmem
    unfold upsert_vectors
    rw [hfind]
    refine ⟨_, rfl, ?_⟩
    rw [find_setCollection]
    show buildPoint p ∈ upsertPoints c.points (ps.map buildPoint)
    unfold upsertPoints
    exact List.mem_append_right _ (List.mem_map_of_mem buildPoint hmem)

/-- Witness for C10: a point supplying only "sparse_indices" and no payload
is stored dense-only, identical to the same point without the half-supplied
key, with an empty payload, and lands in the collection. -/
theorem upsert_vectors_sparse_iff_witness :
    ((buildPoint ⟨"x", [1], some [0], none, none⟩).sparse.isSome = false)
    ∧ buildPoint ⟨"x", [1], some [0], none, none⟩ = buildPoint ⟨"x", [1], none, none, none⟩
    ∧ (buildPoint ⟨"x", [1], some [0], none, none⟩).payload = Payload.empty
    ∧ ∃ db2, upsert_vectors docsDB "docs" [⟨"x", [1], some [0], none, none⟩] = .ok db2
        ∧ buildPoint ⟨"x", [1], some [0], none, none⟩
            ∈ ((QdrantDB.find db2 "docs").map CollectionData.points).getD [] := by
  have h := upsert_vectors_sparse_iff (InputPoint.mk "x" [1] (some [0]) none none)
    docsDB "docs" [InputPoint.mk "x" [1] (some [0]) none none]
    (CollectionData.mk false
      [⟨"p1", [91], none, ⟨some "d1", some "Doc1", some "alpha", some 0⟩⟩,
       ⟨"p2", [85], none, ⟨some "d1", some "Doc1", some "beta", some 1⟩⟩,
       ⟨"p3", [40], none, ⟨some "d2", some "Doc2", some "gamma", some 0⟩⟩])
  exact ⟨by decide, h.2.1 rfl, h.2.2.2.1 rfl, h.2.2.2.2 (by decide) (by decide)⟩
